import Mathlib

/-!
Verification development for the claude-desktop-github-logger MCP server
(src/mcp-server/src/index.ts).  The TypeScript code is shallowly embedded:

* JSON documents (the config file content, webhook replies, GitHub API
  metadata) are modelled by the inductive `JVal`; absent object keys model
  JavaScript `undefined` field reads.
* The network is modelled by explicit response oracles (`Env` for the GitHub
  contents API, a response function for the webhook POST); each remote call
  has three possible outcomes: an OK response with a payload, a non-2xx
  response, or a thrown exception (`FetchOutcome`).
* The mutable `transcripts` array that `retrieveTranscripts` and
  `getTranscriptsFromYearFolder` share is modelled by explicit
  accumulator passing; a thrown exception inside a loop is modelled by an
  abort flag (`Bool`) so that the enclosing try/catch semantics of the
  source are preserved exactly.
* Tool handlers are state-passing functions over the config file state.
-/

namespace GithubLogger

/-- A JSON value, as produced by `JSON.parse` / consumed by `JSON.stringify`.
Object fields are an ordered association list; a key that is absent models a
JavaScript `undefined` field read. -/
inductive JVal where
  | jnull
  | jbool (b : Bool)
  | jnum (n : Int)
  | jstr (s : String)
  | jarr (xs : List JVal)
  | jobj (fields : List (String × JVal))
deriving Repr

mutual

/-- JavaScript template-literal stringification of a JSON value
(`String(v)`): strings verbatim, booleans/null by name, arrays joined with
commas (null elements render empty), plain objects as "[object Object]". -/
def jsShow : JVal → String
  | .jstr s => s
  | .jbool b => if b then "true" else "false"
  | .jnum n => toString n
  | .jnull => "null"
  | .jobj _ => "[object Object]"
  | .jarr xs => String.intercalate "," (jsShowElems xs)

/-- Stringification of array elements (JS renders a null element as ""). -/
def jsShowElems : List JVal → List String
  | [] => []
  | .jnull :: rest => "" :: jsShowElems rest
  | v :: rest => jsShow v :: jsShowElems rest

end

/-- JavaScript truthiness of a JSON value. -/
def jvTruthy : JVal → Bool
  | .jstr s => s != ""
  | .jbool b => b
  | .jnum n => n != 0
  | .jnull => false
  | .jarr _ => true
  | .jobj _ => true

/-- Truthiness of a possibly-`undefined` JSON value (an absent field is
`undefined`, hence falsy). -/
def jTruthy : Option JVal → Bool
  | some v => jvTruthy v
  | none => false

/-- Truthiness of a possibly-`undefined` JavaScript string. -/
def strTruthy : Option String → Bool
  | some s => s != ""
  | none => false

/-- Field lookup in an ordered association list (first match wins, as in a
JS object built without duplicate keys). -/
def lookupField : List (String × JVal) → String → Option JVal
  | [], _ => none
  | (k', v) :: rest, k => if k' = k then some v else lookupField rest k

/-- JavaScript property read `j.k`: `none` models `undefined` (absent key or
non-object receiver). -/
def getField : JVal → String → Option JVal
  | .jobj fs, k => lookupField fs k
  | _, _ => none

/-- Optional-chained property read `config?.k` on a possibly-null object. -/
def jField (config : Option JVal) (k : String) : Option JVal :=
  config.bind (fun j => getField j k)

/-- Template-literal rendering of a possibly-`undefined` JSON value
(`undefined` renders as "undefined"). -/
def jsShowOpt : Option JVal → String
  | some v => jsShow v
  | none => "undefined"

/-- JS `v || d` rendered as a string: the value when truthy, else `d`. -/
def jsShowOr (v : Option JVal) (d : String) : String :=
  match v with
  | some x => if jvTruthy x then jsShow x else d
  | none => d

/-- The state of the config file at `~/.claude-github-logger.json`:
missing, unreadable (read throws), present but not valid JSON
(`JSON.parse` throws), or holding a parsed JSON document. -/
inductive FileState where
  | missing
  | unreadable
  | invalid
  | stored (j : JVal)

/-- `loadConfig` (index.ts lines 44-52): read the fixed path and
`JSON.parse` it; every failure (missing/unreadable file, malformed content)
is caught and yields `null`/absent.  The function is total and its type has
no exception channel: it never raises. -/
def loadConfig : FileState → Option JVal
  | .stored j => some j
  | _ => none

/-- The in-memory `LoggerConfig` record as the setup handler builds it
(index.ts lines 340-347).  The TS interface declares `webhook_url`,
`github_repo`, `session_id` and `auto_log` as required, but the handler
populates the string fields by unchecked `as string` casts of possibly
absent arguments, so at runtime they may be `undefined`; those fields are
therefore `Option String` here. -/
structure LoggerConfig where
  webhook_url : Option String
  github_repo : Option String
  github_token : Option String
  session_id : String
  auto_log : Bool
  project : Option String
deriving Repr, DecidableEq

/-- One object field when the value is present, nothing when it is
`undefined` (`JSON.stringify` omits `undefined`-valued keys). -/
def optField (k : String) : Option JVal → List (String × JVal)
  | some v => [(k, v)]
  | none => []

/-- The JSON document `JSON.stringify(config, null, 2)` writes
(`saveConfig`, index.ts lines 54-57): keys in the construction order of the
object literal at lines 340-347, `undefined`-valued keys omitted. -/
def configToJVal (c : LoggerConfig) : JVal :=
  JVal.jobj
    (optField "webhook_url" (c.webhook_url.map JVal.jstr)
      ++ optField "github_repo" (c.github_repo.map JVal.jstr)
      ++ optField "github_token" (c.github_token.map JVal.jstr)
      ++ [("session_id", JVal.jstr c.session_id), ("auto_log", JVal.jbool c.auto_log)]
      ++ optField "project" (c.project.map JVal.jstr))

/-- `saveConfig` (index.ts lines 54-57): overwrite the fixed path with the
serialized config; the resulting file state. -/
def saveConfig (c : LoggerConfig) : FileState :=
  FileState.stored (configToJVal c)

/-- Read a possibly-`undefined` JSON value as a string field. -/
def jStr? : Option JVal → Option String
  | some (.jstr s) => some s
  | _ => none

/-- Viewing a parsed JSON document as a `LoggerConfig`, field read by field
read, the way the TS code's `JSON.parse(data)`-then-cast uses it.  The
defaults for `session_id`/`auto_log` are only exercised on documents that
did not come from `configToJVal`. -/
def readConfig (j : JVal) : LoggerConfig :=
  { webhook_url := jStr? (getField j "webhook_url")
    github_repo := jStr? (getField j "github_repo")
    github_token := jStr? (getField j "github_token")
    session_id := (jStr? (getField j "session_id")).getD ""
    auto_log := (match getField j "auto_log" with
                 | some (.jbool b) => b
                 | _ => false)
    project := jStr? (getField j "project") }

/-- Outcome of one remote HTTP step: an OK (2xx) response carrying a parsed
payload, a non-OK response, or a thrown exception (network error or a later
`.json()`/`.text()` failure on that response). -/
inductive FetchOutcome (α : Type) where
  | ok (v : α)
  | notOk
  | thrown
deriving Repr, DecidableEq

/-- The JSON metadata GitHub returns for a single content file; the walk
only reads its `download_url` field. -/
structure GhMeta where
  download_url : Option String
deriving Repr, DecidableEq

/-- One GitHub directory-listing entry, as the walk reads it: `name`,
`type` ("dir" or "file"), optional `download_url`, and the API `url` used
to recurse into directories. -/
structure RemoteEntry where
  name : String
  type : String
  download_url : Option String
  url : String
deriving Repr, DecidableEq

/-- The GitHub contents API, as a response oracle keyed by URL:
`fetchJson` for single-file metadata requests, `fetchText` for raw
`download_url` bodies, `fetchList` for directory listings. -/
structure Env where
  fetchJson : String → FetchOutcome GhMeta
  fetchText : String → FetchOutcome String
  fetchList : String → FetchOutcome (List RemoteEntry)

/-- The repository identifier as the template literals at index.ts lines
111/129/146 render `this.config.github_repo`. -/
def configRepo (config : Option JVal) : String :=
  jsShow ((jField config "github_repo").getD JVal.jnull)

/-- URL of `transcripts/latest.md` at the repository root
(index.ts line 111). -/
def rootLatestUrl (repo : String) : String :=
  "https://api.github.com/repos/" ++ repo ++ "/contents/transcripts/latest.md"

/-- URL of the project `latest.md` (index.ts line 129). -/
def projectLatestUrl (repo proj : String) : String :=
  "https://api.github.com/repos/" ++ repo ++ "/contents/transcripts/" ++ proj ++ "/latest.md"

/-- URL of the project folder listing (index.ts line 146). -/
def projectFolderUrl (repo proj : String) : String :=
  "https://api.github.com/repos/" ++ repo ++ "/contents/transcripts/" ++ proj

/-- One `latest.md` probe (index.ts lines 112-125 and 130-143): fetch the
metadata URL; if the response is OK and carries a truthy `download_url`,
fetch that URL; if that response is OK, yield its text.  Every other
outcome — non-OK response, missing/empty `download_url`, or a thrown
exception at any point — is swallowed by the surrounding try/catch and
yields nothing. -/
def tryFetchLatest (env : Env) (metaUrl : String) : Option String :=
  match env.fetchJson metaUrl with
  | .ok m =>
    match m.download_url with
    | some du =>
      if du == "" then none
      else
        match env.fetchText du with
        | .ok t => some t
        | .notOk => none
        | .thrown => none
    | none => none
  | .notOk => none
  | .thrown => none

/-- JS `s.endsWith(suffix)`, as a character-level suffix test (computable
by kernel reduction). -/
def jsEndsWith (s suffix : String) : Bool :=
  suffix.data.isSuffixOf s.data

/-- The effective download URL of a listing entry: `some` exactly when
`file.download_url` is truthy (present and non-empty). -/
def fileDl (f : RemoteEntry) : Option String :=
  match f.download_url with
  | some u => if u == "" then none else some u
  | none => none

/-- The inner file loop of `getTranscriptsFromYearFolder` (index.ts lines
187-194) over one date folder's entries, with the shared `transcripts`
array as accumulator.  The `Bool` is the abort flag: `true` when a fetch
threw, which escapes to the enclosing try/catch of the year-folder walk.
A non-OK content response just skips that file. -/
def filesLoop (env : Env) : List RemoteEntry → List String → List String × Bool
  | [], acc => (acc, false)
  | f :: rest, acc =>
    if jsEndsWith f.name ".md" then
      match fileDl f with
      | some du =>
        match env.fetchText du with
        | .ok t => filesLoop env rest (acc ++ [t])
        | .notOk => filesLoop env rest acc
        | .thrown => (acc, true)
      | none => filesLoop env rest acc
    else filesLoop env rest acc

/-- The date-folder loop of `getTranscriptsFromYearFolder` (index.ts lines
180-197): every directory-type entry is listed (no date-format check); a
non-OK listing skips that folder; a thrown exception aborts the remaining
entries of this year folder (escaping to its catch), keeping what was
already accumulated. -/
def dateLoop (env : Env) : List RemoteEntry → List String → List String × Bool
  | [], acc => (acc, false)
  | d :: rest, acc =>
    if d.type == "dir" then
      match env.fetchList d.url with
      | .ok files =>
        match filesLoop env files acc with
        | (acc2, true) => (acc2, true)
        | (acc2, false) => dateLoop env rest acc2
      | .notOk => dateLoop env rest acc
      | .thrown => (acc, true)
    else dateLoop env rest acc

/-- `getTranscriptsFromYearFolder` (index.ts lines 172-201): list the year
folder; a non-OK listing returns immediately; everything inside is wrapped
in one try/catch, so a thrown exception anywhere leaves the shared
`transcripts` array with whatever was pushed before the throw. -/
def getTranscriptsFromYearFolder (env : Env) (yearFolderUrl : String)
    (transcripts : List String) : List String :=
  match env.fetchList yearFolderUrl with
  | .ok items => (dateLoop env items transcripts).1
  | .notOk => transcripts
  | .thrown => transcripts

/-- The year-name test `/^\d{4}$/.test(item.name)` (index.ts line 154). -/
def isYearName (s : String) : Bool :=
  s.data.length == 4 && s.data.all Char.isDigit

/-- The year-folder loop of `retrieveTranscripts` (index.ts lines 153-157):
descend exactly into directory-type entries whose name is a 4-digit year.
`getTranscriptsFromYearFolder` catches all of its own failures, so this
loop itself never aborts. -/
def yearsLoop (env : Env) : List RemoteEntry → List String → List String
  | [], acc => acc
  | i :: rest, acc =>
    if i.type == "dir" && isYearName i.name then
      yearsLoop env rest (getTranscriptsFromYearFolder env i.url acc)
    else yearsLoop env rest acc

/-- `retrieveTranscripts` (index.ts lines 101-170): guard on a truthy
`this.config?.github_repo` (else throw); probe the root `latest.md`; when
`project` is truthy, probe the project `latest.md` and then walk the
project folder's year directories.  Each probe/listing failure is caught
by its own try/catch, so after the guard the function always returns the
accumulated list. -/
def retrieveTranscripts (env : Env) (config : Option JVal)
    (project : Option String) : Except String (List String) :=
  if jTruthy (jField config "github_repo") = false then
    Except.error "GitHub repo not configured"
  else
    let repo := configRepo config
    let t1 := (tryFetchLatest env (rootLatestUrl repo)).toList
    if strTruthy project = false then Except.ok t1
    else
      let p := project.getD ""
      let t2 := t1 ++ (tryFetchLatest env (projectLatestUrl repo p)).toList
      match env.fetchList (projectFolderUrl repo p) with
      | .ok items => Except.ok (yearsLoop env items t2)
      | .notOk => Except.ok t2
      | .thrown => Except.ok t2

/-- The transcripts one project-folder entry contributes to the walk:
its year-folder harvest when it is a 4-digit-year directory, nothing
otherwise. -/
def yearContribution (env : Env) (i : RemoteEntry) : List String :=
  if i.type == "dir" && isYearName i.name then
    getTranscriptsFromYearFolder env i.url []
  else []

/-- The archived (year/date/*.md) transcripts of a project, as the walk
collects them starting from an empty accumulator. -/
def archivedTranscripts (env : Env) (repo p : String) : List String :=
  match env.fetchList (projectFolderUrl repo p) with
  | .ok items => yearsLoop env items []
  | .notOk => []
  | .thrown => []

/-- An HTTP response as `node-fetch` exposes it to `sendToN8N`: status,
status text, and the JSON body that `response.json()` would yield. -/
structure HttpResp where
  status : Nat
  statusText : String
  jsonBody : JVal
deriving Repr

/-- `response.ok`: status in the 2xx range (200-299). -/
def respOk (r : HttpResp) : Bool :=
  decide (200 ≤ r.status ∧ r.status ≤ 299)

/-- The `ChatLogEntry` the `log_conversation` handler builds (index.ts
lines 376-384).  `session_id` and `project` are dynamic reads off the
parsed config JSON, so they may be any JSON value or absent. -/
structure ChatLogEntry where
  timestamp : String
  session_id : Option JVal
  user_msg : Option String
  assistant_msg : Option String
  model : String
  tools_used : List String
  project : Option JVal
deriving Repr

/-- JS `v || d` on possibly-`undefined` JSON values. -/
def jsOrJ (v : Option JVal) (d : JVal) : JVal :=
  match v with
  | some x => if jvTruthy x then x else d
  | none => d

/-- The fixed-shape webhook payload (index.ts lines 64-71): keys in literal
order, `undefined`-valued keys omitted by `JSON.stringify`; `project` is
`entry.project || this.config.project || ''`. -/
def buildPayload (e : ChatLogEntry) (cfgProject : Option JVal) : JVal :=
  JVal.jobj
    (optField "session_id" e.session_id
      ++ [("model", JVal.jstr e.model),
          ("tools_used", JVal.jarr (e.tools_used.map JVal.jstr))]
      ++ optField "user_message" (e.user_msg.map JVal.jstr)
      ++ optField "assistant_message" (e.assistant_msg.map JVal.jstr)
      ++ [("project", jsOrJ e.project (jsOrJ cfgProject (JVal.jstr "")))])

/-- The webhook address as `fetch(this.config.webhook_url, ...)` receives
it (index.ts line 73). -/
def configWebhook (config : Option JVal) : String :=
  jsShow ((jField config "webhook_url").getD JVal.jnull)

/-- `sendToN8N` (index.ts lines 59-86): throw when `this.config?.webhook_url`
is falsy; otherwise POST the payload once to the webhook.  `net` is the
response oracle for that single POST; its `error` case models a thrown
network exception, which propagates uncaught.  A non-OK response throws
"HTTP status: statusText"; an OK response returns the parsed JSON body
verbatim. -/
def sendToN8N (config : Option JVal) (entry : ChatLogEntry)
    (net : String → JVal → Except String HttpResp) : Except String JVal :=
  if jTruthy (jField config "webhook_url") = false then
    Except.error "Webhook URL not configured"
  else
    match net (configWebhook config)
        (buildPayload entry (jField config "project")) with
    | .error e => Except.error e
    | .ok r =>
      if respOk r then Except.ok r.jsonBody
      else Except.error ("HTTP " ++ toString r.status ++ ": " ++ r.statusText)

/-- The arguments object of `setup_github_logging`; every field read is an
unchecked cast, so each is possibly `undefined`. -/
structure SetupArgs where
  webhook_url : Option String
  github_repo : Option String
  github_token : Option String
  project : Option String
  auto_log : Option Bool
deriving Repr, DecidableEq

/-- The config record the setup handler constructs (index.ts lines
340-347): the argument fields verbatim (no per-field validation), a freshly
generated session id, and `auto_log := args.auto_log !== false`. -/
def configOfArgs (a : SetupArgs) (sid : String) : LoggerConfig :=
  { webhook_url := a.webhook_url
    github_repo := a.github_repo
    github_token := a.github_token
    session_id := sid
    auto_log := a.auto_log != some false
    project := a.project }

/-- Template-literal rendering of a possibly-`undefined` string. -/
def optStrShow : Option String → String
  | some s => s
  | none => "undefined"

/-- JS `v || d` on possibly-`undefined` strings. -/
def strOr (v : Option String) (d : String) : String :=
  match v with
  | some s => if s == "" then d else s
  | none => d

/-- The confirmation text of `setup_github_logging` (index.ts lines
354-361): echoes webhook, repository, session id, auto-log flag and
project, but renders the token only as present/absent. -/
def setupText (cfg : LoggerConfig) : String :=
  "GitHub logging configured successfully!\n\n" ++
  "- Webhook: " ++ optStrShow cfg.webhook_url ++ "\n" ++
  "- Repository: " ++ optStrShow cfg.github_repo ++ "\n" ++
  "- GitHub Token: " ++
    (if strTruthy cfg.github_token then "Configured (hidden for security)"
     else "Not provided") ++ "\n" ++
  "- Session ID: " ++ cfg.session_id ++ "\n" ++
  "- Auto-logging: " ++ (if cfg.auto_log then "Enabled" else "Disabled") ++ "\n" ++
  "- Project: " ++ strOr cfg.project "None" ++ "\n\n" ++
  "Your conversations will now be logged to GitHub via n8n with authenticated access."

/-- The `setup_github_logging` handler (index.ts lines 335-364): only the
complete absence of the arguments object is checked; otherwise the new
config is saved (full overwrite of the file) and the confirmation text
returned.  Result paired with the config file state after the call. -/
def handleSetup (fs : FileState) (args : Option SetupArgs) (sid : String) :
    Except String String × FileState :=
  match args with
  | none => (Except.error "No arguments provided", fs)
  | some a =>
    (Except.ok (setupText (configOfArgs a sid)), saveConfig (configOfArgs a sid))

/-- The arguments object of `log_conversation`; unchecked casts as above. -/
structure LogArgs where
  user_message : Option String
  assistant_message : Option String
  tools_used : Option (List String)
  project : Option String
deriving Repr

/-- The `ChatLogEntry` built at index.ts lines 376-384 from the arguments
and the loaded config JSON: `tools_used := args.tools_used || []`,
`project := args.project || config.project`. -/
def mkEntry (a : LogArgs) (cfgJ : JVal) (now : String) : ChatLogEntry :=
  { timestamp := now
    session_id := getField cfgJ "session_id"
    user_msg := a.user_message
    assistant_msg := a.assistant_message
    model := "claude-sonnet-4"
    tools_used := a.tools_used.getD []
    project :=
      if strTruthy a.project then some (JVal.jstr (a.project.getD ""))
      else getField cfgJ "project" }

/-- The success text of `log_conversation` (index.ts lines 391-398);
`tools_used.join(', ') || 'none'`, `entry.project || 'default'`, and the
three optional URL fields of the webhook reply rendered with `|| 'N/A'`. -/
def logSuccessText (entry : ChatLogEntry) (result : JVal) : String :=
  "Conversation logged successfully!\n\n" ++
  "- Session: " ++ jsShowOpt entry.session_id ++ "\n" ++
  "- Tools used: " ++
    (if String.intercalate ", " entry.tools_used == "" then "none"
     else String.intercalate ", " entry.tools_used) ++ "\n" ++
  "- Project: " ++ jsShowOr entry.project "default" ++ "\n\n" ++
  "GitHub URLs:\n" ++
  "- Latest: " ++ jsShowOr (getField result "latest_url") "N/A" ++ "\n" ++
  "- Dated: " ++ jsShowOr (getField result "dated_url") "N/A" ++ "\n" ++
  "- Project Latest: " ++ jsShowOr (getField result "project_latest_url") "N/A"

/-- The `log_conversation` handler (index.ts lines 366-401): reject a
missing arguments object, reload the config, reject when absent, then
build the entry and relay it; a relay failure surfaces as the error text.
The config file is never written. -/
def handleLogConversation (fs : FileState) (args : Option LogArgs)
    (net : String → JVal → Except String HttpResp) (now : String) :
    Except String String × FileState :=
  match args with
  | none => (Except.error "No arguments provided", fs)
  | some a =>
    match loadConfig fs with
    | none =>
      (Except.error "GitHub logging not configured. Run setup_github_logging first.", fs)
    | some cfgJ =>
      match sendToN8N (some cfgJ) (mkEntry a cfgJ now) net with
      | .error e => (Except.error e, fs)
      | .ok result => (Except.ok (logSuccessText (mkEntry a cfgJ now) result), fs)

/-- JS `(args?.limit as number) || 10` (index.ts line 410): a falsy
(absent or zero) limit falls back to the default. -/
def jsOrNum (v : Option Int) (d : Int) : Int :=
  match v with
  | some n => if n == 0 then d else n
  | none => d

/-- JS `xs.slice(0, e)`: a negative end index counts from the end of the
array, a non-negative one is a plain prefix length. -/
def jsSlice {α : Type} (xs : List α) (e : Int) : List α :=
  xs.take (if e < 0 then ((xs.length : Int) + e).toNat else e.toNat)

/-- The per-transcript blocks of the retrieval summary (index.ts lines
422-426), numbered from 1. -/
def transcriptBlocks : Nat → List String → List String
  | _, [] => []
  | i, t :: rest =>
    ("**Transcript " ++ toString (i + 1) ++ ":**\n" ++ t ++ "\n\n---\n")
      :: transcriptBlocks (i + 1) rest

/-- The `retrieve_chat_history` handler (index.ts lines 403-434): reload
the config, reject when absent; run the walk; apply the `|| 10` limit with
`slice(0, limit)`; report "none found" on an empty slice, else the summary
with the total and shown counts.  The config file is never written. -/
def handleRetrieveChatHistory (fs : FileState) (project : Option String)
    (limit : Option Int) (env : Env) : Except String String × FileState :=
  match loadConfig fs with
  | none =>
    (Except.error "GitHub logging not configured. Run setup_github_logging first.", fs)
  | some cfgJ =>
    match retrieveTranscripts env (some cfgJ) project with
    | .error e => (Except.error e, fs)
    | .ok transcripts =>
      let limited := jsSlice transcripts (jsOrNum limit 10)
      if limited.length = 0 then
        (Except.ok "No chat transcripts found in the repository.", fs)
      else
        (Except.ok ("Found " ++ toString transcripts.length ++
          " transcripts (showing " ++ toString limited.length ++ "):\n\n" ++
          String.intercalate "\n" (transcriptBlocks 0 limited)), fs)

/-- The status text of `get_logger_status` (index.ts lines 451-459); all
fields are dynamic reads off the loaded config JSON, and the token is
rendered only as Configured/Missing. -/
def statusText (cfgJ : JVal) : String :=
  "GitHub Logger Status:\n\n" ++
  "‚úÖ Configured: Yes\n" ++
  "üîó Webhook: " ++ jsShowOpt (getField cfgJ "webhook_url") ++ "\n" ++
  "üìÅ Repository: " ++ jsShowOpt (getField cfgJ "github_repo") ++ "\n" ++
  "üîê GitHub Token: " ++
    (if jTruthy (getField cfgJ "github_token") then "Configured" else "Missing") ++ "\n" ++
  "üÜî Session: " ++ jsShowOpt (getField cfgJ "session_id") ++ "\n" ++
  "ü§ñ Auto-logging: " ++
    (if jTruthy (getField cfgJ "auto_log") then "Enabled" else "Disabled") ++ "\n" ++
  "üìÇ Project: " ++ jsShowOr (getField cfgJ "project") "None" ++ "\n\n" ++
  "Ready to log conversations to GitHub with authenticated access!"

/-- The `get_logger_status` handler (index.ts lines 436-462): an absent
config yields the "not configured" text (a normal, non-error reply); a
present one yields the redacted status summary.  The config file is never
written. -/
def handleGetLoggerStatus (fs : FileState) : Except String String × FileState :=
  match loadConfig fs with
  | none =>
    (Except.ok "GitHub logging is not configured. Run 'setup_github_logging' to get started.", fs)
  | some cfgJ => (Except.ok (statusText cfgJ), fs)

/-- The `update_session_context` handler (index.ts lines 464-478): reject a
missing arguments object, otherwise acknowledge.  The stored
`currentUserMessage` lives only in process memory and is observable
nowhere, so it is not modelled; the config file is never touched. -/
def handleUpdateSessionContext (fs : FileState) (args : Option (Option String)) :
    Except String String × FileState :=
  match args with
  | none => (Except.error "No arguments provided", fs)
  | some _ => (Except.ok "Session context updated. User message prepared for logging.", fs)

/-- A concrete GitHub-API world for evaluating the theorems on a closed
input: a root `latest.md`, a project `latest.md`, one year/date/file
chain, plus one download URL answering non-OK ("dl-miss") and one listing
URL that throws ("u-boom"). -/
def envW : Env :=
  { fetchJson := fun u =>
      if u = rootLatestUrl "o/r" then FetchOutcome.ok { download_url := some "dl-root" }
      else if u = projectLatestUrl "o/r" "p" then FetchOutcome.ok { download_url := some "dl-proj" }
      else FetchOutcome.notOk
    fetchText := fun u =>
      if u = "dl-root" then FetchOutcome.ok "root-body"
      else if u = "dl-proj" then FetchOutcome.ok "proj-body"
      else if u = "dl-arch" then FetchOutcome.ok "arch-body"
      else FetchOutcome.notOk
    fetchList := fun u =>
      if u = projectFolderUrl "o/r" "p" then
        FetchOutcome.ok [{ name := "2025", type := "dir", download_url := none, url := "u-year" }]
      else if u = "u-year" then
        FetchOutcome.ok [{ name := "2025-09-14", type := "dir", download_url := none, url := "u-date" }]
      else if u = "u-date" then
        FetchOutcome.ok
          [{ name := "session.md", type := "file", download_url := some "dl-arch", url := "u-file" }]
      else if u = "u-boom" then FetchOutcome.thrown
      else FetchOutcome.notOk }

/-- A concrete parsed config document for the evaluation worlds. -/
def cfgW : JVal :=
  JVal.jobj [("github_repo", JVal.jstr "o/r"),
             ("webhook_url", JVal.jstr "https://n8n.example/webhook")]

/-- A concrete log entry for the evaluation worlds. -/
def entryW : ChatLogEntry :=
  { timestamp := "t", session_id := some (JVal.jstr "s"), user_msg := some "u",
    assistant_msg := some "a", model := "claude-sonnet-4", tools_used := [],
    project := none }

/-! Helper lemmas: the loops only append to the shared accumulator. -/

/-- The file loop only appends: running it on any accumulator yields the
accumulator followed by the bodies it collects from scratch, with the same
abort flag. -/
theorem filesLoop_acc (env : Env) (files : List RemoteEntry) (acc : List String) :
    filesLoop env files acc = (acc ++ (filesLoop env files []).1, (filesLoop env files []).2) := by
  induction files generalizing acc with
  | nil => simp [filesLoop]
  | cons f rest ih =>
    by_cases hmd : jsEndsWith f.name ".md"
    case pos =>
      cases hdl : fileDl f with
      | none => simpa [filesLoop, hmd, hdl] using ih acc
      | some du =>
        cases ht : env.fetchText du with
        | ok t =>
          simp only [filesLoop, hmd, if_true, hdl, ht]
          rw [ih (acc ++ [t]), ih ([] ++ [t])]
          simp
        | notOk => simpa [filesLoop, hmd, hdl, ht] using ih acc
        | thrown => simp [filesLoop, hmd, hdl, ht]
    case neg => simpa [filesLoop, hmd] using ih acc

/-- The date-folder loop only appends. -/
theorem dateLoop_acc (env : Env) (dates : List RemoteEntry) (acc : List String) :
    dateLoop env dates acc = (acc ++ (dateLoop env dates []).1, (dateLoop env dates []).2) := by
  induction dates generalizing acc with
  | nil => simp [dateLoop]
  | cons d rest ih =>
    by_cases hdir : d.type == "dir"
    case pos =>
      cases hl : env.fetchList d.url with
      | ok files =>
        simp only [dateLoop, hdir, if_true, hl]
        cases hfl : filesLoop env files [] with
        | mk fl1 fl2 =>
          have hf := filesLoop_acc env files acc
          rw [hfl] at hf
          rw [hf]
          cases fl2 with
          | true => simp
          | false =>
            simp only []
            rw [ih (acc ++ fl1), ih fl1]
            simp
      | notOk => simpa [dateLoop, hdir, hl] using ih acc
      | thrown => simp [dateLoop, hdir, hl]
    case neg => simpa [dateLoop, hdir] using ih acc

/-- The year-folder walk only appends to the shared transcripts array. -/
theorem yearFolder_acc (env : Env) (url : String) (acc : List String) :
    getTranscriptsFromYearFolder env url acc = acc ++ getTranscriptsFromYearFolder env url [] := by
  unfold getTranscriptsFromYearFolder
  cases hl : env.fetchList url with
  | ok items =>
    simp only []
    rw [dateLoop_acc env items acc]
  | notOk => simp
  | thrown => simp

/-- The year loop is the accumulator followed by the concatenation, in
listing order, of the contribution of each project-folder entry. -/
theorem yearsLoop_join (env : Env) (items : List RemoteEntry) (acc : List String) :
    yearsLoop env items acc = acc ++ (items.map (yearContribution env)).flatten := by
  induction items generalizing acc with
  | nil => simp [yearsLoop]
  | cons i rest ih =>
    by_cases hy : i.type == "dir" && isYearName i.name
    case pos =>
      simp only [yearsLoop, hy, if_true]
      rw [ih (getTranscriptsFromYearFolder env i.url acc), yearFolder_acc]
      simp [yearContribution, hy]
    case neg =>
      simp only [yearsLoop, hy, if_false]
      rw [ih acc]
      simp [yearContribution, hy]

/-! Helper lemmas: field reads on a serialized config. -/

/-- Reading `webhook_url` off a serialized config. -/
theorem getField_webhook (c : LoggerConfig) :
    getField (configToJVal c) "webhook_url" = c.webhook_url.map JVal.jstr := by
  rcases c with ⟨w, r, t, s, al, p⟩
  cases w <;> cases r <;> cases t <;> cases p <;>
    simp [configToJVal, optField, getField, lookupField]

/-- Reading `github_repo` off a serialized config. -/
theorem getField_repo (c : LoggerConfig) :
    getField (configToJVal c) "github_repo" = c.github_repo.map JVal.jstr := by
  rcases c with ⟨w, r, t, s, al, p⟩
  cases w <;> cases r <;> cases t <;> cases p <;>
    simp [configToJVal, optField, getField, lookupField]

/-- Reading `github_token` off a serialized config. -/
theorem getField_token (c : LoggerConfig) :
    getField (configToJVal c) "github_token" = c.github_token.map JVal.jstr := by
  rcases c with ⟨w, r, t, s, al, p⟩
  cases w <;> cases r <;> cases t <;> cases p <;>
    simp [configToJVal, optField, getField, lookupField]

/-- Reading `session_id` off a serialized config. -/
theorem getField_session (c : LoggerConfig) :
    getField (configToJVal c) "session_id" = some (JVal.jstr c.session_id) := by
  rcases c with ⟨w, r, t, s, al, p⟩
  cases w <;> cases r <;> cases t <;> cases p <;>
    simp [configToJVal, optField, getField, lookupField]

/-- Reading `auto_log` off a serialized config. -/
theorem getField_autolog (c : LoggerConfig) :
    getField (configToJVal c) "auto_log" = some (JVal.jbool c.auto_log) := by
  rcases c with ⟨w, r, t, s, al, p⟩
  cases w <;> cases r <;> cases t <;> cases p <;>
    simp [configToJVal, optField, getField, lookupField]

/-- Reading `project` off a serialized config. -/
theorem getField_project (c : LoggerConfig) :
    getField (configToJVal c) "project" = c.project.map JVal.jstr := by
  rcases c with ⟨w, r, t, s, al, p⟩
  cases w <;> cases r <;> cases t <;> cases p <;>
    simp [configToJVal, optField, getField, lookupField]

/-! Claim theorems. -/

/-- C4: for every LoggerConfig value c, save(c) followed by load() with no
intervening modification of the stored file yields the serialized document
back, and viewing that document as a config (field read by field read, as
the code does after `JSON.parse`) gives a value equal to c: the
serialize-then-parse round trip through the fixed config file is the
identity. -/
theorem save_load_roundtrip (c : LoggerConfig) :
    loadConfig (saveConfig c) = some (configToJVal c)
    ∧ (loadConfig (saveConfig c)).map readConfig = some c := by
  refine ⟨rfl, ?_⟩
  show some (readConfig (configToJVal c)) = some c
  rcases c with ⟨w, r, t, s, al, p⟩
  cases w <;> cases r <;> cases t <;> cases p <;>
    simp [readConfig, getField_webhook, getField_repo, getField_token,
      getField_session, getField_autolog, getField_project, jStr?]

/-- C5: for every state of the configuration file — stored JSON document,
missing file, unreadable file, or unparseable content — load() either
returns exactly the stored document (when one is stored) or returns the
absent result; `loadConfig` is a total function into `Option`, so it never
raises an error to its caller. -/
theorem load_absent_on_failure (fs : FileState) :
    (loadConfig fs = none ∧ ∀ j, fs ≠ FileState.stored j)
    ∨ (∃ j, fs = FileState.stored j ∧ loadConfig fs = some j) := by
  cases fs with
  | stored j => exact Or.inr ⟨j, rfl, rfl⟩
  | missing => exact Or.inl ⟨rfl, fun j h => FileState.noConfusion h⟩
  | unreadable => exact Or.inl ⟨rfl, fun j h => FileState.noConfusion h⟩
  | invalid => exact Or.inl ⟨rfl, fun j h => FileState.noConfusion h⟩

/-- C1: a retrieval call with a project returns the bodies in discovery
order — the root `transcripts/latest.md` body (if retrieved) first, then
the project `latest.md` body (if retrieved), then the archived `.md`
bodies; and the archived part is the concatenation, in the order the
listing API returned the project-folder entries, of each year directory's
harvest.  In particular every archived body appears after the root and
project `latest.md` bodies. -/
theorem retrieve_discovery_order (env : Env) (config : JVal) (p : String)
    (hrepo : jTruthy (jField (some config) "github_repo") = true)
    (hp : p ≠ "") :
    retrieveTranscripts env (some config) (some p) =
      Except.ok
        ((tryFetchLatest env (rootLatestUrl (configRepo (some config)))).toList
          ++ (tryFetchLatest env (projectLatestUrl (configRepo (some config)) p)).toList
          ++ archivedTranscripts env (configRepo (some config)) p)
    ∧ (∀ repo : String, archivedTranscripts env repo p =
        (match env.fetchList (projectFolderUrl repo p) with
         | .ok items => (items.map (yearContribution env)).flatten
         | .notOk => []
         | .thrown => [])) := by
  constructor
  · unfold retrieveTranscripts
    have hps : (p != "") = true := by simp [hp]
    simp only [hrepo, Bool.true_eq_false, if_false, strTruthy, hps,
      archivedTranscripts, Option.getD_some]
    cases hl : env.fetchList (projectFolderUrl (configRepo (some config)) p) <;>
      simp [yearsLoop_join]
  · intro repo
    unfold archivedTranscripts
    cases hl : env.fetchList (projectFolderUrl repo p) <;>
      simp [yearsLoop_join]

/-- C2: failure containment of the walk.  (1) Whenever the repo guard
passes, the walk returns a collected list for every pattern of per-step
outcomes — no failure aborts the call.  (2)-(4) Each loop only appends to
the accumulator, so no already-collected body is ever dropped by a later
failure, and the total is the concatenation of the independent per-entry
contributions.  (5) A non-OK content fetch prunes exactly that file and
the loop continues.  (6) A thrown date-folder listing aborts only the
enclosing year-folder branch, keeping everything collected so far. -/
theorem walk_failure_containment :
    (∀ env config project, jTruthy (jField config "github_repo") = true →
       ∃ ts, retrieveTranscripts env config project = Except.ok ts)
    ∧ (∀ env files acc,
        filesLoop env files acc = (acc ++ (filesLoop env files []).1, (filesLoop env files []).2))
    ∧ (∀ env url acc,
        getTranscriptsFromYearFolder env url acc = acc ++ getTranscriptsFromYearFolder env url [])
    ∧ (∀ env items acc,
        yearsLoop env items acc = acc ++ (items.map (yearContribution env)).flatten)
    ∧ (∀ env f rest acc du, jsEndsWith f.name ".md" = true → fileDl f = some du →
        env.fetchText du = FetchOutcome.notOk →
        filesLoop env (f :: rest) acc = filesLoop env rest acc)
    ∧ (∀ env d rest acc, (d.type == "dir") = true →
        env.fetchList d.url = FetchOutcome.thrown →
        dateLoop env (d :: rest) acc = (acc, true)) := by
  refine ⟨?_, filesLoop_acc, yearFolder_acc, yearsLoop_join, ?_, ?_⟩
  · intro env config project h
    unfold retrieveTranscripts
    simp only [h, Bool.true_eq_false, if_false]
    split
    · exact ⟨_, rfl⟩
    · split
      · exact ⟨_, rfl⟩
      · exact ⟨_, rfl⟩
      · exact ⟨_, rfl⟩
  · intro env f rest acc du hmd hdl ht
    simp [filesLoop, hmd, hdl, ht]
  · intro env d rest acc hdir hl
    simp [dateLoop, hdir, hl]

/-- C7: entry filtering of the archived-transcript walk.  At the project
folder, an entry is descended into exactly when it is directory-typed with
a 4-digit-year name (any other entry contributes nothing); within a date
folder, a body fetch happens exactly for the file entries whose name ends
in ".md" and which carry a truthy download URL — such an entry contributes
its body on an OK fetch, and no other entry contributes one. -/
theorem walk_entry_filtering :
    (∀ env i rest acc, (i.type == "dir" && isYearName i.name) = false →
       yearsLoop env (i :: rest) acc = yearsLoop env rest acc)
    ∧ (∀ env i rest acc, (i.type == "dir" && isYearName i.name) = true →
       yearsLoop env (i :: rest) acc =
         yearsLoop env rest (acc ++ getTranscriptsFromYearFolder env i.url []))
    ∧ (∀ env f rest acc, (jsEndsWith f.name ".md" && strTruthy f.download_url) = false →
       filesLoop env (f :: rest) acc = filesLoop env rest acc)
    ∧ (∀ env f rest acc du, jsEndsWith f.name ".md" = true → fileDl f = some du →
       filesLoop env (f :: rest) acc =
         (match env.fetchText du with
          | .ok t => filesLoop env rest (acc ++ [t])
          | .notOk => filesLoop env rest acc
          | .thrown => (acc, true))) := by
  refine ⟨?_, ?_, ?_, ?_⟩
  · intro env i rest acc h
    simp [yearsLoop, h]
  · intro env i rest acc h
    simp only [yearsLoop, h, if_true]
    rw [yearFolder_acc]
  · intro env f rest acc h
    rcases Bool.and_eq_false_iff.mp h with hmd | hdl
    · simp [filesLoop, hmd]
    · have hnone : fileDl f = none := by
        rcases hdu : f.download_url with _ | u
        · simp [fileDl, hdu]
        · have : (u != "") = false := by
            simpa [strTruthy, hdu] using hdl
          simp only [bne_eq_false_iff_eq] at this
          simp [fileDl, hdu, this]
      by_cases hmd : jsEndsWith f.name ".md"
      · simp [filesLoop, hmd, hnone]
      · simp [filesLoop, hmd]
  · intro env f rest acc du hmd hdl
    cases ht : env.fetchText du <;> simp [filesLoop, hmd, hdl, ht]

/-- C6: for every entry, when the single POST of `sendToN8N` gets a reply,
a non-2xx status fails the call with the message "HTTP status: statusText"
(which contains the status code; no retry happens — the one response fully
determines the result), and a 2xx reply returns the endpoint's parsed JSON
body verbatim, with no schema imposed on it. -/
theorem relay_status_handling (cfgJ : JVal) (entry : ChatLogEntry)
    (net : String → JVal → Except String HttpResp) (r : HttpResp)
    (hw : jTruthy (jField (some cfgJ) "webhook_url") = true)
    (hnet : net (configWebhook (some cfgJ))
        (buildPayload entry (jField (some cfgJ) "project")) = Except.ok r) :
    (respOk r = true → sendToN8N (some cfgJ) entry net = Except.ok r.jsonBody)
    ∧ (respOk r = false →
        sendToN8N (some cfgJ) entry net =
          Except.error ("HTTP " ++ toString r.status ++ ": " ++ r.statusText)) := by
  unfold sendToN8N
  simp only [hw, Bool.true_eq_false, if_false, hnet]
  constructor
  · intro h; simp [h]
  · intro h; simp [h]

/-- C8: across every sequence of tool invocations, the stored config (and
hence its session_id) is left untouched by log_conversation,
retrieve_chat_history, get_logger_status and update_session_context —
they only read it — while every setup_github_logging call with an
arguments object fully replaces the stored record (independently of the
previous file state, so never a merge) with a record whose session_id is
exactly the freshly generated one. -/
theorem session_id_stability :
    (∀ fs args net now, (handleLogConversation fs args net now).2 = fs)
    ∧ (∀ fs p l env, (handleRetrieveChatHistory fs p l env).2 = fs)
    ∧ (∀ fs, (handleGetLoggerStatus fs).2 = fs)
    ∧ (∀ fs args, (handleUpdateSessionContext fs args).2 = fs)
    ∧ (∀ fs a sid,
        (handleSetup fs (some a) sid).2 = FileState.stored (configToJVal (configOfArgs a sid)))
    ∧ (∀ a sid, (configOfArgs a sid).session_id = sid) := by
  refine ⟨?_, ?_, ?_, ?_, ?_, ?_⟩
  · intro fs args net now
    cases args with
    | none => rfl
    | some a =>
      unfold handleLogConversation
      cases hl : loadConfig fs with
      | none => rfl
      | some cfgJ =>
        cases hs : sendToN8N (some cfgJ) (mkEntry a cfgJ now) net <;> simp [hs]
  · intro fs p l env
    unfold handleRetrieveChatHistory
    cases hl : loadConfig fs with
    | none => rfl
    | some cfgJ =>
      cases hr : retrieveTranscripts env (some cfgJ) p with
      | error e => simp [hr]
      | ok ts =>
        simp only [hr]
        split <;> rfl
  · intro fs
    unfold handleGetLoggerStatus
    cases hl : loadConfig fs <;> rfl
  · intro fs args
    cases args <;> rfl
  · intro fs a sid
    rfl
  · intro a sid
    rfl

/-- C9: two-run noninterference of the token value on displayed output —
for any two configurations (or setup argument objects) that differ only in
the value of a present non-empty github_token, get_logger_status prints
the identical text, and setup_github_logging prints the identical
confirmation text: both reveal token presence only, never the value. -/
theorem token_value_noninterference (fs : FileState) (a : SetupArgs) (sid : String)
    (c : LoggerConfig) (t1 t2 : String) (h1 : t1 ≠ "") (h2 : t2 ≠ "") :
    (handleGetLoggerStatus (saveConfig { c with github_token := some t1 })).1 =
      (handleGetLoggerStatus (saveConfig { c with github_token := some t2 })).1
    ∧ (handleSetup fs (some { a with github_token := some t1 }) sid).1 =
      (handleSetup fs (some { a with github_token := some t2 }) sid).1 := by
  constructor
  · simp [handleGetLoggerStatus, saveConfig, loadConfig, statusText,
      getField_webhook, getField_repo, getField_token, getField_session,
      getField_autolog, getField_project, jTruthy, jvTruthy, h1, h2]
  · simp [handleSetup, setupText, configOfArgs, strTruthy, h1, h2]

/-- C3 counterexample: `setup_github_logging` invoked with a present but
empty arguments object (so `webhook_url` is absent) does NOT fail — it
saves a config record, and the saved document has no `webhook_url` key at
all, refuting "never saves a config record with a missing webhook_url". -/
theorem setup_missing_webhook_still_saves :
    (handleSetup FileState.missing
        (some { webhook_url := none, github_repo := none, github_token := none,
                project := none, auto_log := none }) "sid-1").2 =
      FileState.stored (configToJVal
        { webhook_url := none, github_repo := none, github_token := none,
          session_id := "sid-1", auto_log := true, project := none })
    ∧ getField (configToJVal
        { webhook_url := none, github_repo := none, github_token := none,
          session_id := "sid-1", auto_log := true, project := none })
        "webhook_url" = none
    ∧ (handleSetup FileState.missing
        (some { webhook_url := none, github_repo := none, github_token := none,
                project := none, auto_log := none }) "sid-1").1 =
      Except.ok (setupText
        { webhook_url := none, github_repo := none, github_token := none,
          session_id := "sid-1", auto_log := true, project := none }) := by
  exact ⟨rfl, rfl, rfl⟩

/-- C3 amended: only the complete absence of the arguments object is
validated — `setup_github_logging` and `log_conversation` fail with
"No arguments provided" exactly then, before any network call or write.
With a present arguments object no individual required field is checked:
setup saves a record carrying the argument fields verbatim (a missing
webhook_url/github_repo/github_token becomes an absent field of the saved
record), and log_conversation proceeds straight to the relay call whether
or not user_message/assistant_message are present. -/
theorem args_object_only_validation :
    (∀ fs sid, handleSetup fs none sid = (Except.error "No arguments provided", fs))
    ∧ (∀ fs a sid, (handleSetup fs (some a) sid).2 = saveConfig (configOfArgs a sid))
    ∧ (∀ a sid, (configOfArgs a sid).webhook_url = a.webhook_url
        ∧ (configOfArgs a sid).github_repo = a.github_repo
        ∧ (configOfArgs a sid).github_token = a.github_token)
    ∧ (∀ fs net now, handleLogConversation fs none net now =
        (Except.error "No arguments provided", fs))
    ∧ (∀ fs a net now cfgJ, loadConfig fs = some cfgJ →
        handleLogConversation fs (some a) net now =
          (match sendToN8N (some cfgJ) (mkEntry a cfgJ now) net with
           | .error e => (Except.error e, fs)
           | .ok result => (Except.ok (logSuccessText (mkEntry a cfgJ now) result), fs))) := by
  refine ⟨fun fs sid => rfl, fun fs a sid => rfl,
    fun a sid => ⟨rfl, rfl, rfl⟩, fun fs net now => rfl, ?_⟩
  intro fs a net now cfgJ hl
  unfold handleLogConversation
  simp [hl]

/-- C10: a `retrieve_chat_history` invocation whose limit argument is 0
(or absent) behaves exactly like the default of 10 — up to 10 transcripts
are shown — and whenever the walk yielded any transcript at all it
produces the "Found N (showing k)" summary with k = min(10, N) ≥ 1, never
the empty "none found" reply. -/
theorem limit_zero_defaults_to_ten (fs : FileState) (p : Option String)
    (env : Env) (cfgJ : JVal) (ts : List String)
    (hload : loadConfig fs = some cfgJ)
    (hret : retrieveTranscripts env (some cfgJ) p = Except.ok ts)
    (hne : ts ≠ []) :
    handleRetrieveChatHistory fs p (some 0) env = handleRetrieveChatHistory fs p none env
    ∧ (handleRetrieveChatHistory fs p (some 0) env).1 =
        Except.ok ("Found " ++ toString ts.length ++ " transcripts (showing " ++
          toString (ts.take 10).length ++ "):\n\n" ++
          String.intercalate "\n" (transcriptBlocks 0 (ts.take 10)))
    ∧ (ts.take 10).length ≠ 0 := by
  have hsl : jsSlice ts ((10 : Int)) = ts.take 10 := by
    simp [jsSlice]
  have hlen : (ts.take 10).length ≠ 0 := by
    simp only [List.length_take, ne_eq]
    intro h
    rcases Nat.min_eq_zero_iff.mp h with h10 | hl0
    · omega
    · exact hne (List.length_eq_zero.mp hl0)
  have h0 : jsOrNum (some 0) 10 = (10 : Int) := rfl
  have hn : jsOrNum none 10 = (10 : Int) := rfl
  refine ⟨?_, ?_, hlen⟩
  · unfold handleRetrieveChatHistory
    simp only [hload, hret, h0, hn]
  · unfold handleRetrieveChatHistory
    simp only [hload, hret, h0, hsl]
    rw [if_neg hlen]

/-- C1 witness: the discovery-order theorem evaluated in the concrete
world: root body, then project body, then the archived body. -/
theorem retrieve_discovery_order_witness :
    retrieveTranscripts envW (some cfgW) (some "p") =
      Except.ok ["root-body", "proj-body", "arch-body"] := by
  have h := retrieve_discovery_order envW cfgW "p" rfl (by decide)
  rw [h.1]
  rfl

/-- C2 witness: in the concrete world the walk returns a collected list, a
non-OK content fetch skips only that file keeping the accumulator, and a
thrown date listing aborts the year branch keeping the accumulator. -/
theorem walk_failure_containment_witness :
    (∃ ts, retrieveTranscripts envW (some cfgW) none = Except.ok ts)
    ∧ filesLoop envW
        [{ name := "x.md", type := "file", download_url := some "dl-miss", url := "u-x" }]
        ["kept"] = filesLoop envW [] ["kept"]
    ∧ dateLoop envW
        [{ name := "d", type := "dir", download_url := none, url := "u-boom" }]
        ["kept"] = (["kept"], true) := by
  refine ⟨walk_failure_containment.1 envW (some cfgW) none rfl, ?_, ?_⟩
  · exact walk_failure_containment.2.2.2.2.1 envW _ [] ["kept"] "dl-miss" (by decide) rfl rfl
  · exact walk_failure_containment.2.2.2.2.2 envW _ [] ["kept"] rfl rfl

/-- C6 witness: in the concrete world an HTTP 500 reply fails the relay
call with a message containing the status code, and an HTTP 200 reply
with body {ok: true, latest_url: "X"} returns exactly that object. -/
theorem relay_status_handling_witness :
    sendToN8N (some cfgW) entryW
        (fun _ _ => Except.ok ⟨500, "Internal Server Error", JVal.jnull⟩) =
      Except.error "HTTP 500: Internal Server Error"
    ∧ sendToN8N (some cfgW) entryW
        (fun _ _ => Except.ok ⟨200, "OK",
          JVal.jobj [("ok", JVal.jbool true), ("latest_url", JVal.jstr "X")]⟩) =
      Except.ok (JVal.jobj [("ok", JVal.jbool true), ("latest_url", JVal.jstr "X")]) := by
  constructor
  · exact (relay_status_handling cfgW entryW _
      ⟨500, "Internal Server Error", JVal.jnull⟩ rfl rfl).2 (by decide)
  · exact (relay_status_handling cfgW entryW _
      ⟨200, "OK", JVal.jobj [("ok", JVal.jbool true), ("latest_url", JVal.jstr "X")]⟩
      rfl rfl).1 (by decide)

/-- C7 witness: the filtering theorem evaluated on concrete entries — a
file named README.md at the project level is skipped, the 2025 directory
is descended, a .txt file contributes nothing, and session.md with a
download URL is fetched. -/
theorem walk_entry_filtering_witness :
    yearsLoop envW
        [{ name := "README.md", type := "file", download_url := some "dl-arch", url := "u-x" }]
        [] = yearsLoop envW [] []
    ∧ yearsLoop envW
        [{ name := "2025", type := "dir", download_url := none, url := "u-year" }] [] =
        yearsLoop envW [] ([] ++ getTranscriptsFromYearFolder envW "u-year" [])
    ∧ filesLoop envW
        [{ name := "notes.txt", type := "file", download_url := some "dl-arch", url := "u-x" }]
        [] = filesLoop envW [] []
    ∧ filesLoop envW
        [{ name := "session.md", type := "file", download_url := some "dl-arch", url := "u-x" }]
        [] =
        (match envW.fetchText "dl-arch" with
         | .ok t => filesLoop envW [] ([] ++ [t])
         | .notOk => filesLoop envW [] []
         | .thrown => ([], true)) := by
  exact ⟨walk_entry_filtering.1 envW _ [] [] (by decide),
    walk_entry_filtering.2.1 envW _ [] [] (by decide),
    walk_entry_filtering.2.2.1 envW _ [] [] (by decide),
    walk_entry_filtering.2.2.2 envW _ [] [] "dl-arch" (by decide) rfl⟩

/-- C9 witness: two concrete configurations (and setup argument objects)
differing only in the token value tok-A vs tok-B produce identical status
and confirmation texts. -/
theorem token_value_noninterference_witness :
    (handleGetLoggerStatus (saveConfig
        { webhook_url := some "w", github_repo := some "o/r", github_token := some "tok-A",
          session_id := "s", auto_log := true, project := none })).1 =
      (handleGetLoggerStatus (saveConfig
        { webhook_url := some "w", github_repo := some "o/r", github_token := some "tok-B",
          session_id := "s", auto_log := true, project := none })).1
    ∧ (handleSetup FileState.missing
        (some { webhook_url := some "w", github_repo := some "o/r",
                github_token := some "tok-A", project := none, auto_log := none }) "s").1 =
      (handleSetup FileState.missing
        (some { webhook_url := some "w", github_repo := some "o/r",
                github_token := some "tok-B", project := none, auto_log := none }) "s").1 := by
  exact token_value_noninterference FileState.missing
    { webhook_url := some "w", github_repo := some "o/r", github_token := none,
      project := none, auto_log := none } "s"
    { webhook_url := some "w", github_repo := some "o/r", github_token := none,
      session_id := "s", auto_log := true, project := none }
    "tok-A" "tok-B" (by decide) (by decide)

/-- C3 (amended) witness: with a present arguments object whose
user_message and assistant_message are both absent, log_conversation still
proceeds to the relay call — its result is exactly the relay's. -/
theorem args_object_only_validation_witness :
    handleLogConversation (FileState.stored cfgW)
        (some { user_message := none, assistant_message := none,
                tools_used := none, project := none })
        (fun _ _ => Except.ok ⟨200, "OK", JVal.jnull⟩) "now" =
      (match sendToN8N (some cfgW)
          (mkEntry { user_message := none, assistant_message := none,
                     tools_used := none, project := none } cfgW "now")
          (fun _ _ => Except.ok ⟨200, "OK", JVal.jnull⟩) with
       | .error e => (Except.error e, FileState.stored cfgW)
       | .ok result =>
         (Except.ok (logSuccessText
           (mkEntry { user_message := none, assistant_message := none,
                      tools_used := none, project := none } cfgW "now") result),
          FileState.stored cfgW)) := by
  exact args_object_only_validation.2.2.2.2 (FileState.stored cfgW) _ _ "now" cfgW rfl

/-- C10 witness: in the concrete world (one transcript available), limit 0
behaves like the default and yields the "Found 1 (showing 1)" summary. -/
theorem limit_zero_defaults_to_ten_witness :
    handleRetrieveChatHistory (FileState.stored cfgW) none (some 0) envW =
      handleRetrieveChatHistory (FileState.stored cfgW) none none envW
    ∧ (handleRetrieveChatHistory (FileState.stored cfgW) none (some 0) envW).1 =
      Except.ok "Found 1 transcripts (showing 1):\n\n**Transcript 1:**\nroot-body\n\n---\n" := by
  have h := limit_zero_defaults_to_ten (FileState.stored cfgW) none envW cfgW
    ["root-body"] rfl rfl (by decide)
  exact ⟨h.1, h.2.1⟩

end GithubLogger
